import Mathlib

/-
Verification of the IR-generation stage of the luapp compiler
(src/compiler/src/ir.c) against its natural-language specification.

The C source is shallowly embedded below.  Pointers to doubly linked lists of
instructions / constants / prototypes are modelled as Lean lists (the C code
only ever appends, joins and traverses forward); a NULL section pointer is
modelled as `none`.  Machine integers are modelled as `Nat`/`Int` with explicit
`% 256` / `% 65536` where the C types (`unsigned char`, `unsigned short`)
truncate.  C `double` values are modelled by `CDouble` below.
-/

set_option autoImplicit false

namespace LuappIR

/-- Model of a C `double` as used by ir.c: a rational payload `val` plus a
`negZero` flag distinguishing the IEEE bit pattern of `-0.0` (val = 0,
negZero = true) from `+0.0` (val = 0, negZero = false).  C's `==` on doubles
is IEEE equality, which compares the numeric value only and identifies
`0.0` with `-0.0`; it is modelled by equality of the `val` fields.
(NaN payloads are not modelled; no claim involves them.) -/
structure CDouble where
  val : ℚ
  negZero : Bool
deriving DecidableEq

/-- Opcodes appearing in ir.c.  The enum `ir_opcode` itself lives in ir.h,
which is not part of the sources; the names are taken from the uses in ir.c. -/
inductive Opcode where
  | IR_CALL
  | IR_LOADK
  | IR_LOADKX
  | IR_LOADI
  | IR_GETGLOBAL
  | IR_CLOSURE
  | IR_ARGPREP
  | IR_VARARGPREP
  | IR_RETURN
deriving DecidableEq

/-- Modelled from the spec: ir.c selects the argument-preparation variant by
computing `IR_ARGPREP + (vararg != NULL)`; the enum layout is in the missing
ir.h.  The spec says the variant is "selected by vararg flag", so `+ 1` on
`IR_ARGPREP` is taken to yield `IR_VARARGPREP`. -/
def argprepOpcode (vararg : Bool) : Opcode :=
  if vararg then .IR_VARARGPREP else .IR_ARGPREP

/-- An IR instruction (`struct ir_instruction`).  The four operand layouts
(`iABC`, `iABx`, `iAsBx`, `SUB`) become constructors, making the mode tag
implicit.  `uninit` models the value of the uninitialized local variable
`instruction` that the `NODE_IDENTIFIER` case of `ir_build_proto` appends
when the identifier is not global (no constructor runs on that path). -/
inductive Instruction where
  | iABC (op : Opcode) (A B C : Nat)
  | iABx (op : Opcode) (A : Nat) (Bx : Nat)
  | iAsBx (op : Opcode) (A : Nat) (sBx : Int)
  | sub (value : Nat)
  | uninit
deriving DecidableEq

/-- `ir_instruction_ABC`: no operand conversion happens (all params are int). -/
def ir_instruction_ABC (op : Opcode) (A B C : Nat) : Instruction :=
  .iABC op A B C

/-- `ir_instruction_ABx`: the `Bx` parameter has C type `unsigned short`, so
the argument is truncated modulo 2^16 at the call boundary. -/
def ir_instruction_ABx (op : Opcode) (A : Nat) (Bx : Nat) : Instruction :=
  .iABx op A (Bx % 65536)

/-- `ir_instruction_AsBx`: the `sBx` parameter has C type `short`; every call
site passes a value already in range (guarded by the number-literal checks),
so the value is stored as given. -/
def ir_instruction_AsBx (op : Opcode) (A : Nat) (sBx : Int) : Instruction :=
  .iAsBx op A sBx

/-- `ir_instruction_sub`: carries one raw 32-bit word. -/
def ir_instruction_sub (value : Nat) : Instruction :=
  .sub value

/-- An entry of the constant pool (`struct ir_constant`): a string constant
carries the referenced symbol's integer id, a number constant the double. -/
inductive IRConstant where
  | str (symbol_id : Nat)
  | num (value : CDouble)
deriving DecidableEq

/-- `struct ir_constant_list`: the linked list is modelled as `entries`; the
`size` counter is kept separate because ir.c maintains it separately (it is
read and post-incremented by the interning functions).  ir.c never explicitly
initializes it; the allocator `smalloc` (outside the given sources) is assumed
to zero it, matching the spec's "index equal to the pool's prior size". -/
structure ConstantList where
  entries : List IRConstant
  size : Nat
deriving DecidableEq

/-- `ir_find_string_constant`: linear scan counting every entry (of either
type) while looking for a string constant with the given symbol id.  The C
function signals "not found" by returning `(unsigned int)-1`, which the
callers compare against `-1`; this is modelled as `Option`. -/
def ir_find_string_constant : List IRConstant → Nat → Nat → Option Nat
  | [], _, _ => none
  | c :: rest, sid, index =>
    match c with
    | .str s => if s = sid then some index else ir_find_string_constant rest sid (index + 1)
    | .num _ => ir_find_string_constant rest sid (index + 1)

/-- `ir_find_number_constant`: same scan for a number constant whose stored
double compares `==` to the probe (IEEE equality: `val` fields only). -/
def ir_find_number_constant : List IRConstant → CDouble → Nat → Option Nat
  | [], _, _ => none
  | c :: rest, number, index =>
    match c with
    | .num w =>
      if w.val = number.val then some index
      else ir_find_number_constant rest number (index + 1)
    | .str _ => ir_find_number_constant rest number (index + 1)

/-- `ir_constant_string`: return the index of an existing matching entry, or
append a new string constant and return the pool's prior size
(post-incrementing the size counter). -/
def ir_constant_string (pool : ConstantList) (sid : Nat) : Nat × ConstantList :=
  match ir_find_string_constant pool.entries sid 0 with
  | some index => (index, pool)
  | none => (pool.size, ⟨pool.entries ++ [.str sid], pool.size + 1⟩)

/-- `ir_constant_number`: find-or-append for number constants. -/
def ir_constant_number (pool : ConstantList) (value : CDouble) : Nat × ConstantList :=
  match ir_find_number_constant pool.entries value 0 with
  | some index => (index, pool)
  | none => (pool.size, ⟨pool.entries ++ [.num value], pool.size + 1⟩)

/-- `struct ir_context`: only the error counter is relevant to the claims
(the symbol table is consumed read-only and the root proto is returned). -/
structure IRContext where
  error_count : Nat
deriving DecidableEq

/-- `struct ir_proto`.  `code` is an `Option` because ir.c distinguishes a
NULL section pointer (no section yet) from an existing section; a fresh proto
has `code = none` (`ir_proto` never initializes the field; zeroing `smalloc`
assumed, as for the pool's size counter).  `protos_size` models
`proto->protos->size`, which `ir_proto_list(NULL, NULL)` initializes to 1 and
`ir_proto_append` never updates. -/
inductive Proto where
  | mk (code : Option (List Instruction)) (constants : ConstantList) (is_vararg : Bool)
      (parameters_size : Nat) (top_register : Nat) (max_stack_size : Nat)
      (protos : List Proto) (protos_size : Nat)

def Proto.code : Proto → Option (List Instruction)
  | .mk c _ _ _ _ _ _ _ => c

def Proto.constants : Proto → ConstantList
  | .mk _ k _ _ _ _ _ _ => k

def Proto.is_vararg : Proto → Bool
  | .mk _ _ v _ _ _ _ _ => v

def Proto.parameters_size : Proto → Nat
  | .mk _ _ _ p _ _ _ _ => p

def Proto.top_register : Proto → Nat
  | .mk _ _ _ _ t _ _ _ => t

def Proto.max_stack_size : Proto → Nat
  | .mk _ _ _ _ _ m _ _ => m

def Proto.protos : Proto → List Proto
  | .mk _ _ _ _ _ _ pr _ => pr

def Proto.protos_size : Proto → Nat
  | .mk _ _ _ _ _ _ _ ps => ps

def Proto.withCode : Proto → Option (List Instruction) → Proto
  | .mk _ k v p t m pr ps, c => .mk c k v p t m pr ps

def Proto.withConstants : Proto → ConstantList → Proto
  | .mk c _ v p t m pr ps, k => .mk c k v p t m pr ps

def Proto.withVararg : Proto → Bool → Proto
  | .mk c k _ p t m pr ps, v => .mk c k v p t m pr ps

def Proto.withParams : Proto → Nat → Proto
  | .mk c k v _ t m pr ps, p => .mk c k v p t m pr ps

def Proto.withTop : Proto → Nat → Proto
  | .mk c k v p _ m pr ps, t => .mk c k v p t m pr ps

def Proto.withMax : Proto → Nat → Proto
  | .mk c k v p t _ pr ps, m => .mk c k v p t m pr ps

/-- `ir_proto_append(proto->protos, p)` as used by the builder: the child is
linked onto the end of the enclosing proto's child list; the list's `size`
counter is not updated by `ir_proto_append`. -/
def Proto.addChild : Proto → Proto → Proto
  | .mk c k v p t m pr ps, child => .mk c k v p t m (pr ++ [child]) ps

/-- `ir_proto()`: a fresh prototype.  `top_register`, `max_stack_size`,
`parameters_size` are zeroed, the constant list is created empty (size
counter 0, see `ConstantList`), the child-proto list is created by
`ir_proto_list(NULL, NULL)` whose `size` field is set to 1, and the `code`
field is left NULL. -/
def ir_proto : Proto :=
  .mk none ⟨[], 0⟩ false 0 0 0 [] 1

/-- `ir_allocate_register`: returns the pre-advance `top_register`; on
`top_register + count > UCHAR_MAX` (computed in `int`, no wrap) it reports the
fault by bumping the context's error counter, but still advances
`top_register` by `count` (an `unsigned char`, hence modulo 256) and raises
`max_stack_size` if exceeded.  The `count % 256` at entry models the
`unsigned char` parameter conversion. -/
def ir_allocate_register (context : IRContext) (proto : Proto) (count : Nat) :
    Nat × IRContext × Proto :=
  let count := count % 256
  let top := proto.top_register
  let context :=
    if 255 < proto.top_register + count then ⟨context.error_count + 1⟩ else context
  let proto := proto.withTop ((proto.top_register + count) % 256)
  let proto :=
    if proto.max_stack_size < proto.top_register then proto.withMax proto.top_register
    else proto
  (top, context, proto)

/-- `ir_free_register`: on `top_register - count < 0` (computed in `int`) it
bumps the error counter, but still subtracts `count` from `top_register`
modulo 256 (`unsigned char` arithmetic). -/
def ir_free_register (context : IRContext) (proto : Proto) (count : Nat) :
    IRContext × Proto :=
  let count := count % 256
  let context :=
    if proto.top_register < count then ⟨context.error_count + 1⟩ else context
  (context, proto.withTop ((proto.top_register + 256 - count) % 256))

/-- `ir_append(proto->code, instruction)` as the builder calls it: the return
value is discarded, so when the section pointer is NULL the freshly created
section is lost (the instruction vanishes); a non-NULL section is mutated in
place and receives the instruction at its end. -/
def Proto.appendCode (p : Proto) (i : Instruction) : Proto :=
  match p.code with
  | none => p
  | some l => p.withCode (some (l ++ [i]))

/-- Syntax-tree nodes (`struct node`) as consumed by `ir_build_proto`.  A NULL
node pointer is the `nil` constructor (`ir_build_proto` returns immediately on
it).  Strings and identifiers carry their symbol's integer id; a function body
carries the parameter list's vararg flag and name count (ir.c dereferences the
name list unconditionally, so it is modelled as always present); an expression
list carries its stored `size` field. -/
inductive Node where
  | nil
  | expression_statement (expr : Node)
  | call (prefix_expression : Node) (args : Node)
  | strLit (sym : Nat)
  | name_reference (id : Node)
  | number (value : CDouble)
  | identifier (is_global : Bool) (sym : Nat)
  | block (ini : Node) (statement : Node)
  | function_body (vararg : Bool) (nparams : Nat) (body : Node)
  | expression_list (ini : Node) (expr : Node) (size : Nat)
deriving DecidableEq

/-- `ir_build_proto`: the recursive lowering.  The C function returns an
unused `struct ir_proto *` (most paths return nothing); its observable effect
is the mutation of the context's error counter and of the current prototype,
so it is modelled as a state transformer.  Each case follows the corresponding
`switch` arm of ir.c; see the case comments for source subtleties. -/
def ir_build_proto (context : IRContext) (proto : Proto) : Node → IRContext × Proto
  | .nil => (context, proto)
  | .expression_statement e => ir_build_proto context proto e
  | .call f args =>
    -- size: 0 for no args, the stored size for an expression list, else 1
    let size : Nat :=
      match args with
      | .nil => 0
      | .expression_list _ _ sz => sz
      | _ => 1
    let old := proto.top_register
    let (context, proto) := ir_build_proto context proto f
    let (context, proto) := ir_build_proto context proto args
    let instruction := ir_instruction_ABC .IR_CALL old (size + 1) 1
    let (context, proto) := ir_free_register context proto (size + 1)
    (context, proto.appendCode instruction)
  | .strLit s =>
    let (index, pool) := ir_constant_string proto.constants s
    let proto := proto.withConstants pool
    let (r, context, proto) := ir_allocate_register context proto 1
    (context, proto.appendCode (ir_instruction_ABx .IR_LOADK r index))
  | .name_reference id => ir_build_proto context proto id
  | .number v =>
    -- first tier: whole number fitting the signed 16-bit immediate;
    -- floor(x) == x holds for a double exactly when it is an integer,
    -- i.e. when the rational payload has denominator 1
    if v.val ≤ 32767 ∧ -32768 ≤ v.val ∧ v.val.den = 1 then
      let (r, context, proto) := ir_allocate_register context proto 1
      (context, proto.appendCode (ir_instruction_AsBx .IR_LOADI r v.val.num))
    else
      let (index, pool) := ir_constant_number proto.constants v
      let proto := proto.withConstants pool
      if index ≤ 65535 then
        let (r, context, proto) := ir_allocate_register context proto 1
        (context, proto.appendCode (ir_instruction_ABx .IR_LOADK r index))
      else
        let (r, context, proto) := ir_allocate_register context proto 1
        let proto := proto.appendCode (ir_instruction_ABx .IR_LOADKX r 0)
        (context, proto.appendCode (ir_instruction_sub index))
  | .identifier g s =>
    -- the local `instruction` is only assigned in the is_global branch; the
    -- ir_append after the `if` runs unconditionally, so a non-global
    -- identifier appends the uninitialized local
    if g then
      let (index, pool) := ir_constant_string proto.constants s
      let proto := proto.withConstants pool
      let (r, context, proto) := ir_allocate_register context proto 1
      (context, proto.appendCode (ir_instruction_ABx .IR_GETGLOBAL r index))
    else
      (context, proto.appendCode .uninit)
  | .block ini stmt =>
    match stmt with
    | .nil => ir_build_proto context proto ini
    | _ =>
      let (context, proto) := ir_build_proto context proto ini
      ir_build_proto context proto stmt
  | .function_body vararg nparams body =>
    -- a fresh child proto is created and its vararg/parameter metadata set;
    -- the argument-preparation instruction is put in a local section that is
    -- never attached to the child (dead store), the body and the return are
    -- lowered into the ENCLOSING proto's code, the child is appended to the
    -- enclosing proto's child list, and the closure instruction's Bx is
    -- protos->size - 1 (a size counter ir_proto_append never increments)
    let p := (ir_proto.withVararg vararg).withParams nparams
    let _section : List Instruction :=
      [ir_instruction_ABC (argprepOpcode vararg) nparams 0 0]
    let (context, proto) := ir_build_proto context proto body
    let proto := proto.appendCode (ir_instruction_ABC .IR_RETURN 0 1 0)
    let proto := proto.addChild p
    let (r, context, proto) := ir_allocate_register context proto 1
    (context, proto.appendCode (ir_instruction_ABx .IR_CLOSURE r (proto.protos_size - 1)))
  | .expression_list ini e _sz =>
    match e with
    | .nil => ir_build_proto context proto ini
    | _ =>
      let (context, proto) := ir_build_proto context proto ini
      ir_build_proto context proto e

@[simp] theorem Proto.top_withTop (p : Proto) (t : Nat) : (p.withTop t).top_register = t := by
  cases p; rfl

@[simp] theorem Proto.max_withTop (p : Proto) (t : Nat) :
    (p.withTop t).max_stack_size = p.max_stack_size := by
  cases p; rfl

@[simp] theorem Proto.code_withTop (p : Proto) (t : Nat) : (p.withTop t).code = p.code := by
  cases p; rfl

@[simp] theorem Proto.constants_withTop (p : Proto) (t : Nat) :
    (p.withTop t).constants = p.constants := by
  cases p; rfl

@[simp] theorem Proto.protos_withTop (p : Proto) (t : Nat) : (p.withTop t).protos = p.protos := by
  cases p; rfl

@[simp] theorem Proto.protosSize_withTop (p : Proto) (t : Nat) :
    (p.withTop t).protos_size = p.protos_size := by
  cases p; rfl

@[simp] theorem Proto.top_withMax (p : Proto) (m : Nat) :
    (p.withMax m).top_register = p.top_register := by
  cases p; rfl

@[simp] theorem Proto.max_withMax (p : Proto) (m : Nat) : (p.withMax m).max_stack_size = m := by
  cases p; rfl

@[simp] theorem Proto.code_withMax (p : Proto) (m : Nat) : (p.withMax m).code = p.code := by
  cases p; rfl

@[simp] theorem Proto.constants_withMax (p : Proto) (m : Nat) :
    (p.withMax m).constants = p.constants := by
  cases p; rfl

@[simp] theorem Proto.protos_withMax (p : Proto) (m : Nat) : (p.withMax m).protos = p.protos := by
  cases p; rfl

@[simp] theorem Proto.protosSize_withMax (p : Proto) (m : Nat) :
    (p.withMax m).protos_size = p.protos_size := by
  cases p; rfl

@[simp] theorem Proto.top_withConstants (p : Proto) (k : ConstantList) :
    (p.withConstants k).top_register = p.top_register := by
  cases p; rfl

@[simp] theorem Proto.max_withConstants (p : Proto) (k : ConstantList) :
    (p.withConstants k).max_stack_size = p.max_stack_size := by
  cases p; rfl

@[simp] theorem Proto.code_withConstants (p : Proto) (k : ConstantList) :
    (p.withConstants k).code = p.code := by
  cases p; rfl

@[simp] theorem Proto.constants_withConstants (p : Proto) (k : ConstantList) :
    (p.withConstants k).constants = k := by
  cases p; rfl

@[simp] theorem Proto.protos_withConstants (p : Proto) (k : ConstantList) :
    (p.withConstants k).protos = p.protos := by
  cases p; rfl

@[simp] theorem Proto.protosSize_withConstants (p : Proto) (k : ConstantList) :
    (p.withConstants k).protos_size = p.protos_size := by
  cases p; rfl

@[simp] theorem Proto.top_withCode (p : Proto) (c : Option (List Instruction)) :
    (p.withCode c).top_register = p.top_register := by
  cases p; rfl

@[simp] theorem Proto.max_withCode (p : Proto) (c : Option (List Instruction)) :
    (p.withCode c).max_stack_size = p.max_stack_size := by
  cases p; rfl

@[simp] theorem Proto.code_withCode (p : Proto) (c : Option (List Instruction)) :
    (p.withCode c).code = c := by
  cases p; rfl

@[simp] theorem Proto.constants_withCode (p : Proto) (c : Option (List Instruction)) :
    (p.withCode c).constants = p.constants := by
  cases p; rfl

@[simp] theorem Proto.protos_withCode (p : Proto) (c : Option (List Instruction)) :
    (p.withCode c).protos = p.protos := by
  cases p; rfl

@[simp] theorem Proto.protosSize_withCode (p : Proto) (c : Option (List Instruction)) :
    (p.withCode c).protos_size = p.protos_size := by
  cases p; rfl

@[simp] theorem Proto.top_addChild (p q : Proto) : (p.addChild q).top_register = p.top_register := by
  cases p; rfl

@[simp] theorem Proto.max_addChild (p q : Proto) :
    (p.addChild q).max_stack_size = p.max_stack_size := by
  cases p; rfl

@[simp] theorem Proto.code_addChild (p q : Proto) : (p.addChild q).code = p.code := by
  cases p; rfl

@[simp] theorem Proto.constants_addChild (p q : Proto) :
    (p.addChild q).constants = p.constants := by
  cases p; rfl

@[simp] theorem Proto.protos_addChild (p q : Proto) :
    (p.addChild q).protos = p.protos ++ [q] := by
  cases p; rfl

@[simp] theorem Proto.protosSize_addChild (p q : Proto) :
    (p.addChild q).protos_size = p.protos_size := by
  cases p; rfl

theorem Proto.appendCode_some (p : Proto) (l : List Instruction) (i : Instruction)
    (h : p.code = some l) : p.appendCode i = p.withCode (some (l ++ [i])) := by
  simp [Proto.appendCode, h]

@[simp] theorem Proto.code_appendCode (p : Proto) (i : Instruction) :
    (p.appendCode i).code = p.code.map (fun l => l ++ [i]) := by
  cases p with
  | mk c k v pa t m pr ps => cases c <;> rfl

@[simp] theorem Proto.top_appendCode (p : Proto) (i : Instruction) :
    (p.appendCode i).top_register = p.top_register := by
  cases p with
  | mk c k v pa t m pr ps => cases c <;> rfl

@[simp] theorem Proto.max_appendCode (p : Proto) (i : Instruction) :
    (p.appendCode i).max_stack_size = p.max_stack_size := by
  cases p with
  | mk c k v pa t m pr ps => cases c <;> rfl

@[simp] theorem Proto.constants_appendCode (p : Proto) (i : Instruction) :
    (p.appendCode i).constants = p.constants := by
  cases p with
  | mk c k v pa t m pr ps => cases c <;> rfl

@[simp] theorem Proto.protos_appendCode (p : Proto) (i : Instruction) :
    (p.appendCode i).protos = p.protos := by
  cases p with
  | mk c k v pa t m pr ps => cases c <;> rfl

@[simp] theorem Proto.protosSize_appendCode (p : Proto) (i : Instruction) :
    (p.appendCode i).protos_size = p.protos_size := by
  cases p with
  | mk c k v pa t m pr ps => cases c <;> rfl

theorem Proto.sizeOf_protos_lt (p : Proto) : sizeOf p.protos < sizeOf p := by
  cases p with
  | mk c k v pa t m pr ps => simp [Proto.protos]; omega

mutual

/-- `ir_collect_protos`, with the pointer semantics of ir.c made explicit.
In the source a prototype's `prev`/`next` fields simultaneously link it into
its parent's child list and into the collection list being built, and the
collector mutates them while the enclosing loop is still traversing them:

* collecting a childless prototype builds a fresh list header
  (`ir_proto_list(main, main)`) and does not touch the node's own `next`,
  so the parent loop's increment `iter = iter->next` still reaches the next
  sibling;
* collecting a prototype WITH children ends in `ir_proto_append(list, main)`,
  which runs `main->next = list->last->next`; the collection list's last
  node's `next` is NULL at every such moment (the child loop has just
  terminated by reading it, or it is the NULL just written by that node's
  own final append), so this overwrites `main->next` with NULL, severing
  `main`'s link to its next sibling — the enclosing loop then reads NULL
  and never visits the remaining siblings;
* `ir_proto_join` rewrites only the previously collected child's `next`
  (a node the traversal has already passed) and the new first element's
  `prev` (never read), so it does not change which siblings are visited.

The collected sequence of a prototype is therefore the concatenation of the
VISITED children's collections followed by the prototype itself, where the
child traversal stops after the first child that has children of its own
(`ir_collect_visit`); a childless prototype collects to the singleton
(the `if (!list)` branch). -/
def ir_collect_protos (main : Proto) : List Proto :=
  ir_collect_visit main.protos ++ [main]
termination_by sizeOf main
decreasing_by
  simp_wf
  exact Proto.sizeOf_protos_lt main

/-- The collector's `for` loop over a child list, following the `next`
pointers as they stand after each child's collection: a childless child
keeps its sibling link and the loop continues; a child with children has
had its `next` overwritten with NULL by the final `ir_proto_append` of its
own collection, so the loop terminates and later siblings are dropped. -/
def ir_collect_visit : List Proto → List Proto
  | [] => []
  | c :: rest =>
    match c.protos with
    | [] => ir_collect_protos c ++ ir_collect_visit rest
    | _ => ir_collect_protos c
termination_by l => sizeOf l
decreasing_by
  all_goals simp_wf
  all_goals omega

end

/-! Evaluation lemmas for the register allocator. -/

theorem ir_allocate_register_eq (context : IRContext) (proto : Proto) (n : Nat) :
    ir_allocate_register context proto n
      = (proto.top_register,
         if 255 < proto.top_register + n % 256 then ⟨context.error_count + 1⟩ else context,
         (proto.withTop ((proto.top_register + n % 256) % 256)).withMax
           (Nat.max proto.max_stack_size ((proto.top_register + n % 256) % 256))) := by
  cases proto with
  | mk c k v pa t m pr ps =>
    simp only [ir_allocate_register, Proto.top_register, Proto.withTop, Proto.max_stack_size,
      Proto.withMax]
    rcases Nat.lt_or_ge m ((t + n % 256) % 256) with h | h
    · rw [if_pos h]
      have hmax : Nat.max m ((t + n % 256) % 256) = (t + n % 256) % 256 :=
        Nat.max_eq_right (Nat.le_of_lt h)
      rw [hmax]
    · rw [if_neg (Nat.not_lt.mpr h)]
      have hmax : Nat.max m ((t + n % 256) % 256) = m := Nat.max_eq_left h
      rw [hmax]

theorem ir_allocate_register_ok (context : IRContext) (proto : Proto) (n : Nat)
    (h : proto.top_register + n % 256 ≤ 255) :
    ir_allocate_register context proto n
      = (proto.top_register, context,
         (proto.withTop (proto.top_register + n % 256)).withMax
           (Nat.max proto.max_stack_size (proto.top_register + n % 256))) := by
  rw [ir_allocate_register_eq, if_neg (by omega), Nat.mod_eq_of_lt (by omega)]

theorem ir_free_register_eq (context : IRContext) (proto : Proto) (n : Nat) :
    ir_free_register context proto n
      = (if proto.top_register < n % 256 then ⟨context.error_count + 1⟩ else context,
         proto.withTop ((proto.top_register + 256 - n % 256) % 256)) := by
  rfl

theorem ir_free_register_ok (context : IRContext) (proto : Proto) (n : Nat)
    (htop : proto.top_register ≤ 255) (h : n % 256 ≤ proto.top_register) :
    ir_free_register context proto n
      = (context, proto.withTop (proto.top_register - n % 256)) := by
  rw [ir_free_register_eq, if_neg (by omega)]
  have : (proto.top_register + 256 - n % 256) % 256 = proto.top_register - n % 256 := by omega
  rw [this]

/-- C7: `ir_allocate_register` increments the context's error counter exactly
when `top_register + count` would exceed 255, and `ir_free_register`
increments it exactly when the free would drive `top_register` below 0; in
every other case the counter is unchanged. -/
theorem claim7_alloc_free_fault_conditions (context : IRContext) (proto : Proto) (n : Nat)
    (hn : n ≤ 255) :
    (ir_allocate_register context proto n).2.1.error_count
        = context.error_count + (if 255 < proto.top_register + n then 1 else 0)
    ∧ (ir_free_register context proto n).1.error_count
        = context.error_count + (if proto.top_register < n then 1 else 0) := by
  have hmod : n % 256 = n := Nat.mod_eq_of_lt (by omega)
  refine ⟨?_, ?_⟩
  · rw [ir_allocate_register_eq, hmod]
    split <;> simp
  · rw [ir_free_register_eq, hmod]
    split <;> simp

theorem claim7_witness :
    (1 : Nat) ≤ 255
    ∧ (ir_allocate_register ⟨0⟩ (.mk none ⟨[], 0⟩ false 0 255 255 [] 1) 1).2.1.error_count = 1
    ∧ (ir_free_register ⟨0⟩ (.mk none ⟨[], 0⟩ false 0 0 0 [] 1) 1).1.error_count = 1
    ∧ (ir_allocate_register ⟨0⟩ (.mk none ⟨[], 0⟩ false 0 0 0 [] 1) 1).2.1.error_count = 0
    ∧ (ir_free_register ⟨0⟩ (.mk none ⟨[], 0⟩ false 0 3 3 [] 1) 1).1.error_count = 0 := by
  refine ⟨by decide, ?_, ?_, ?_, ?_⟩
  · have h := (claim7_alloc_free_fault_conditions ⟨0⟩ (.mk none ⟨[], 0⟩ false 0 255 255 [] 1) 1
      (by decide)).1
    simpa using h
  · have h := (claim7_alloc_free_fault_conditions ⟨0⟩ (.mk none ⟨[], 0⟩ false 0 0 0 [] 1) 1
      (by decide)).2
    simpa using h
  · have h := (claim7_alloc_free_fault_conditions ⟨0⟩ (.mk none ⟨[], 0⟩ false 0 0 0 [] 1) 1
      (by decide)).1
    simpa using h
  · have h := (claim7_alloc_free_fault_conditions ⟨0⟩ (.mk none ⟨[], 0⟩ false 0 3 3 [] 1) 1
      (by decide)).2
    simpa using h

/-- C10: even on a detected fault the allocator mutates state.  On exhaustion
`ir_allocate_register` still returns the pre-advance `top_register`, advances
`top_register` by `count` modulo 256 (a changed value, so the state is not
left intact), and raises `max_stack_size` to the wrapped value whenever that
exceeds it; on underflow `ir_free_register` still subtracts `count` modulo
256, again changing `top_register`. -/
theorem claim10_fault_still_mutates (context : IRContext) (proto : Proto) (n : Nat)
    (hn : n ≤ 255) (htop : proto.top_register ≤ 255) :
    (255 < proto.top_register + n →
        (ir_allocate_register context proto n).1 = proto.top_register
        ∧ (ir_allocate_register context proto n).2.2.top_register
            = (proto.top_register + n) % 256
        ∧ (ir_allocate_register context proto n).2.2.max_stack_size
            = Nat.max proto.max_stack_size ((proto.top_register + n) % 256)
        ∧ (ir_allocate_register context proto n).2.2.top_register ≠ proto.top_register
        ∧ (ir_allocate_register context proto n).2.1.error_count = context.error_count + 1)
    ∧ (proto.top_register < n →
        (ir_free_register context proto n).2.top_register = proto.top_register + 256 - n
        ∧ (ir_free_register context proto n).2.top_register ≠ proto.top_register
        ∧ (ir_free_register context proto n).1.error_count = context.error_count + 1) := by
  have hmod : n % 256 = n := Nat.mod_eq_of_lt (by omega)
  constructor
  · intro hfault
    rw [ir_allocate_register_eq, hmod]
    refine ⟨rfl, by simp, by simp, ?_, by rw [if_pos hfault]⟩
    simp only [Prod.snd, Proto.top_withMax, Proto.top_withTop]
    omega
  · intro hfault
    rw [ir_free_register_eq, hmod]
    refine ⟨?_, ?_, by rw [if_pos hfault]⟩
    · simp only [Prod.snd, Proto.top_withTop]
      omega
    · simp only [Prod.snd, Proto.top_withTop]
      omega

theorem claim10_witness :
    (255 : Nat) ≤ 255 ∧ (250 : Nat) ≤ 255 ∧ 255 < 250 + 255 ∧ (250 : Nat) < 255
    ∧ (ir_allocate_register ⟨0⟩ (.mk none ⟨[], 0⟩ false 0 250 250 [] 1) 255).1 = 250
    ∧ (ir_allocate_register ⟨0⟩ (.mk none ⟨[], 0⟩ false 0 250 250 [] 1) 255).2.2.top_register = 249
    ∧ (ir_allocate_register ⟨0⟩ (.mk none ⟨[], 0⟩ false 0 250 250 [] 1) 255).2.1.error_count = 1
    ∧ (ir_free_register ⟨0⟩ (.mk none ⟨[], 0⟩ false 0 250 250 [] 1) 255).2.top_register = 251
    ∧ (ir_free_register ⟨0⟩ (.mk none ⟨[], 0⟩ false 0 250 250 [] 1) 255).1.error_count = 1 := by
  have h := claim10_fault_still_mutates ⟨0⟩ (.mk none ⟨[], 0⟩ false 0 250 250 [] 1) 255
    (by decide) (by decide)
  have h1 := h.1 (by decide)
  have h2 := h.2 (by decide)
  exact ⟨by decide, by decide, by decide, by decide, h1.1, by simpa using h1.2.1,
    by simpa using h1.2.2.2.2, by simpa using h2.1, by simpa using h2.2.2⟩

/-! Constant-pool lemmas. -/

theorem ir_find_string_constant_append_self (l : List IRConstant) (sid i : Nat)
    (h : ir_find_string_constant l sid i = none) :
    ir_find_string_constant (l ++ [IRConstant.str sid]) sid i = some (i + l.length) := by
  induction l generalizing i with
  | nil => simp [ir_find_string_constant]
  | cons c rest ih =>
    cases c with
    | str s =>
      simp only [ir_find_string_constant, List.cons_append, List.append_eq] at h ⊢
      by_cases hs : s = sid
      · rw [if_pos hs] at h
        exact absurd h (by simp)
      · rw [if_neg hs] at h ⊢
        rw [ih (i + 1) h]
        congr 1
        simp only [List.length_cons]
        omega
    | num w =>
      simp only [ir_find_string_constant, List.cons_append, List.append_eq] at h ⊢
      rw [ih (i + 1) h]
      congr 1
      simp only [List.length_cons]
      omega

/-- C8: interning the same string symbol id twice returns the same index both
times; the pool's entry count grows by one on the first interning and by zero
on the second.  The hypotheses say the symbol is not yet in the pool (which
is what "increases by exactly one on the first interning" presupposes) and
that the pool's size counter agrees with its entry count, an invariant of
every pool the program builds (fresh pools start at 0/empty and every insert
increments both). -/
theorem claim8_string_intern_idempotent (pool : ConstantList) (sid : Nat)
    (hsz : pool.size = pool.entries.length)
    (habs : ir_find_string_constant pool.entries sid 0 = none) :
    (ir_constant_string pool sid).1
        = (ir_constant_string (ir_constant_string pool sid).2 sid).1
    ∧ (ir_constant_string pool sid).2.entries.length = pool.entries.length + 1
    ∧ (ir_constant_string (ir_constant_string pool sid).2 sid).2.entries.length
        = (ir_constant_string pool sid).2.entries.length := by
  have h2 := ir_find_string_constant_append_self pool.entries sid 0 habs
  simp only [ir_constant_string, habs, h2]
  simp [hsz]

theorem claim8_witness :
    (ConstantList.mk [] 0).size = (ConstantList.mk [] 0).entries.length
    ∧ ir_find_string_constant (ConstantList.mk [] 0).entries 3 0 = none
    ∧ (ir_constant_string ⟨[], 0⟩ 3).1 = (ir_constant_string (ir_constant_string ⟨[], 0⟩ 3).2 3).1
    ∧ (ir_constant_string ⟨[], 0⟩ 3).2.entries.length = 1 := by
  have h := claim8_string_intern_idempotent ⟨[], 0⟩ 3 rfl rfl
  exact ⟨rfl, rfl, h.1, by simpa using h.2.1⟩

/-- C4 as stated is false on the code: `ir_find_number_constant` compares the
stored doubles with C's `==`, which is IEEE equality, and `0.0 == -0.0` is
true; so interning `0.0` and then `-0.0` does NOT yield two distinct indices
and two distinct entries — the second interning finds the first entry. -/
theorem claim4_counterexample :
    ¬ ((ir_constant_number ⟨[], 0⟩ ⟨0, false⟩).1
          ≠ (ir_constant_number (ir_constant_number ⟨[], 0⟩ ⟨0, false⟩).2 ⟨0, true⟩).1
        ∧ (ir_constant_number (ir_constant_number ⟨[], 0⟩ ⟨0, false⟩).2
            ⟨0, true⟩).2.entries.length = 2) := by
  decide

/-- C4 amended: number-constant deduplication is exact IEEE `==` equality
(value equality, identifying `0.0` with `-0.0`), not bit-for-bit equality:
interning `0.0` and then `-0.0` into the same (empty) pool returns index 0
both times and leaves a single pool entry, the one recording `0.0`. -/
theorem claim4_amended_ieee_equality :
    (ir_constant_number ⟨[], 0⟩ ⟨0, false⟩).1 = 0
    ∧ (ir_constant_number (ir_constant_number ⟨[], 0⟩ ⟨0, false⟩).2 ⟨0, true⟩).1 = 0
    ∧ (ir_constant_number (ir_constant_number ⟨[], 0⟩ ⟨0, false⟩).2 ⟨0, true⟩).2.entries
        = [.num ⟨0, false⟩] := by
  decide

/-- C5 is what the spec demands, but the code does the opposite: lowering a
non-global identifier runs the `ir_append` after the `if (is_global)` with
the local `instruction` never having been assigned, so an uninitialized
instruction IS appended to the prototype's code section, and no failure is
reported (the error counter stays 0).  Evaluated here at a concrete
non-global identifier node. -/
theorem claim5_eval_nonglobal_identifier :
    ir_build_proto ⟨0⟩ (.mk (some []) ⟨[], 0⟩ false 0 0 0 [] 1) (.identifier false 7)
      = (⟨0⟩, .mk (some [.uninit]) ⟨[], 0⟩ false 0 0 0 [] 1) := rfl

/-- C1 is the spec's intended design, but the code diverges: lowering a
nested function body (zero parameters, empty body, non-vararg) into an
enclosing prototype leaves the child prototype's code section NULL (`none` —
the argument-preparation section is built into a local that is dropped, and
nothing is ever lowered into the child), lowers the body and appends the
zero-result return into the ENCLOSING prototype's code, and then appends the
make-closure instruction (Bx = protos->size - 1 = 0) there too.  The child is
registered in the enclosing child list and exactly one closure instruction is
emitted, but the child's own code is empty. -/
theorem claim1_eval_function_body :
    ir_build_proto ⟨0⟩
        (.mk (some [ir_instruction_ABC .IR_VARARGPREP 0 0 0]) ⟨[], 0⟩ true 0 0 0 [] 1)
        (.function_body false 0 .nil)
      = (⟨0⟩, .mk (some [ir_instruction_ABC .IR_VARARGPREP 0 0 0,
            ir_instruction_ABC .IR_RETURN 0 1 0, ir_instruction_ABx .IR_CLOSURE 0 0]) ⟨[], 0⟩
            true 0 1 1 [.mk none ⟨[], 0⟩ false 0 0 0 [] 1] 1) := rfl

/-- C2: lowering the statement `print("hi")` — an expression statement whose
call has a global-identifier callee and one string-literal argument — appends
exactly a load-global at register R (= the pre-statement `top_register`) with
the interned index of the callee's name, a load-constant at register R + 1
with the interned index of the string, and a call with base R, B = 2
(argument count plus one) and C = 1 (result count plus one); afterwards
`top_register` is back to R and the error counter is untouched.  The
hypotheses: the code section exists (it always does during a real build — the
root proto gets its vararg-prep instruction first) and the two register
allocations stay within the 255 limit. -/
theorem claim2_call_global_string_literal (context : IRContext) (proto : Proto)
    (ps hs : Nat) (code0 : List Instruction)
    (hcode : proto.code = some code0)
    (htop : proto.top_register + 2 ≤ 255) :
    ((ir_build_proto context proto
        (.expression_statement (.call (.name_reference (.identifier true ps)) (.strLit hs)))).2.code
      = some (code0
          ++ [ir_instruction_ABx .IR_GETGLOBAL proto.top_register
                (ir_constant_string proto.constants ps).1,
              ir_instruction_ABx .IR_LOADK (proto.top_register + 1)
                (ir_constant_string (ir_constant_string proto.constants ps).2 hs).1,
              ir_instruction_ABC .IR_CALL proto.top_register 2 1]))
    ∧ (ir_build_proto context proto
        (.expression_statement (.call (.name_reference (.identifier true ps)) (.strLit hs)))).2.top_register
      = proto.top_register
    ∧ (ir_build_proto context proto
        (.expression_statement (.call (.name_reference (.identifier true ps)) (.strLit hs)))).1
      = context := by
  rcases hps : ir_constant_string proto.constants ps with ⟨i0, pool1⟩
  rcases hhs : ir_constant_string pool1 hs with ⟨i1, pool2⟩
  have m1 : (proto.top_register + 1) % 256 = proto.top_register + 1 := by omega
  have m2 : (proto.top_register + 1 + 1) % 256 = proto.top_register + 1 + 1 := by omega
  have c1 : ¬ (255 < proto.top_register + 1) := by omega
  have c2 : ¬ (255 < proto.top_register + 1 + 1) := by omega
  have c3 : ¬ (proto.top_register + 1 + 1 < 2) := by omega
  have m3 : (proto.top_register + 1 + 1 + 256 - 2) % 256 = proto.top_register := by omega
  simp only [ir_build_proto, ir_allocate_register_eq, ir_free_register_eq,
    Proto.constants_withTop, Proto.constants_withMax, Proto.constants_withConstants,
    Proto.constants_appendCode, Proto.top_withTop, Proto.top_withMax, Proto.top_withConstants,
    Proto.top_appendCode, Proto.max_withTop, Proto.max_withMax, Proto.max_withConstants,
    Proto.max_appendCode, Proto.code_withTop, Proto.code_withMax, Proto.code_withConstants,
    Proto.code_appendCode, hps, hhs, Nat.reduceMod, m1, m2, c1, c2, c3, m3,
    if_false, if_true, ite_true, ite_false, hcode, Option.map_some, Nat.reduceAdd,
    List.append_assoc, List.cons_append, List.nil_append, and_true, and_self]
  simp

theorem claim2_witness :
    (Proto.mk (some []) ⟨[], 0⟩ false 0 0 0 [] 1).code = some []
    ∧ (Proto.mk (some []) ⟨[], 0⟩ false 0 0 0 [] 1).top_register + 2 ≤ 255
    ∧ (ir_build_proto ⟨0⟩ (.mk (some []) ⟨[], 0⟩ false 0 0 0 [] 1)
        (.expression_statement (.call (.name_reference (.identifier true 1)) (.strLit 2)))).2.code
      = some [ir_instruction_ABx .IR_GETGLOBAL 0 0, ir_instruction_ABx .IR_LOADK 1 1,
          ir_instruction_ABC .IR_CALL 0 2 1]
    ∧ (ir_build_proto ⟨0⟩ (.mk (some []) ⟨[], 0⟩ false 0 0 0 [] 1)
        (.expression_statement (.call (.name_reference (.identifier true 1)) (.strLit 2)))).2.top_register
      = 0
    ∧ (ir_build_proto ⟨0⟩ (.mk (some []) ⟨[], 0⟩ false 0 0 0 [] 1)
        (.expression_statement (.call (.name_reference (.identifier true 1)) (.strLit 2)))).1
      = ⟨0⟩ := by
  have h := claim2_call_global_string_literal ⟨0⟩ (.mk (some []) ⟨[], 0⟩ false 0 0 0 [] 1)
    1 2 [] rfl (by decide)
  exact ⟨rfl, by decide, h.1, h.2.1, h.2.2⟩

/-- C3: the three-tier number-literal policy.  (1) The exact integer 32767
(the top of the signed-16-bit range) lowers to a load-immediate instruction
and adds no constant-pool entry.  (2) 32768 fails the immediate test, is
interned, and — whenever the resulting index fits 16 bits — lowers to a
load-constant instruction addressing that index.  (3) When the interned index
exceeds 65535, the lowering emits a load-constant-extended instruction with a
zero immediate immediately followed (adjacently, in the same append sequence)
by a raw-word continuation carrying the full index. -/
theorem claim3_number_literal_three_tiers :
    (∀ (context : IRContext) (proto : Proto) (code0 : List Instruction),
      proto.code = some code0 → proto.top_register ≤ 254 →
        (ir_build_proto context proto (.number ⟨32767, false⟩)).2.code
            = some (code0 ++ [ir_instruction_AsBx .IR_LOADI proto.top_register 32767])
        ∧ (ir_build_proto context proto (.number ⟨32767, false⟩)).2.constants = proto.constants)
    ∧
    (∀ (context : IRContext) (proto : Proto) (code0 : List Instruction),
      proto.code = some code0 → proto.top_register ≤ 254 →
      (ir_constant_number proto.constants ⟨32768, false⟩).1 ≤ 65535 →
        (ir_build_proto context proto (.number ⟨32768, false⟩)).2.code
            = some (code0 ++ [ir_instruction_ABx .IR_LOADK proto.top_register
                (ir_constant_number proto.constants ⟨32768, false⟩).1])
        ∧ (ir_build_proto context proto (.number ⟨32768, false⟩)).2.constants
            = (ir_constant_number proto.constants ⟨32768, false⟩).2)
    ∧
    (∀ (context : IRContext) (proto : Proto) (code0 : List Instruction),
      proto.code = some code0 → proto.top_register ≤ 254 →
      65535 < (ir_constant_number proto.constants ⟨32768, false⟩).1 →
        (ir_build_proto context proto (.number ⟨32768, false⟩)).2.code
            = some (code0 ++ [ir_instruction_ABx .IR_LOADKX proto.top_register 0,
                ir_instruction_sub (ir_constant_number proto.constants ⟨32768, false⟩).1])
        ∧ (ir_build_proto context proto (.number ⟨32768, false⟩)).2.constants
            = (ir_constant_number proto.constants ⟨32768, false⟩).2) := by
  refine ⟨?_, ?_, ?_⟩
  · intro context proto code0 hcode htop
    have m1 : (proto.top_register + 1) % 256 = proto.top_register + 1 := by omega
    have c1 : ¬ (255 < proto.top_register + 1) := by omega
    have hq1 : ((32767 : ℚ) ≤ (32767 : ℚ)) = True := by norm_num
    have hq2 : ((-32768 : ℚ) ≤ (32767 : ℚ)) = True := by norm_num
    have hden : (((32767 : ℚ).den = 1)) = True := by norm_num
    have hnum : (32767 : ℚ).num = 32767 := by norm_num
    simp only [ir_build_proto, ir_allocate_register_eq, reduceIte, Nat.reduceMod, m1, c1,
      hq1, hq2, hden, hnum, true_and, and_true, if_true,
      if_false, Proto.code_appendCode, Proto.code_withTop, Proto.code_withMax,
      Proto.constants_appendCode, Proto.constants_withTop, Proto.constants_withMax,
      hcode, Option.map_some]
    simp
  · intro context proto code0 hcode htop hidx
    rcases hnum : ir_constant_number proto.constants ⟨32768, false⟩ with ⟨idx, pool1⟩
    rw [hnum] at hidx
    simp only at hidx
    have m1 : (proto.top_register + 1) % 256 = proto.top_register + 1 := by omega
    have c1 : ¬ (255 < proto.top_register + 1) := by omega
    have hq : ((32768 : ℚ) ≤ (32767 : ℚ)) = False := by norm_num
    simp only [ir_build_proto, ir_allocate_register_eq, reduceIte, Nat.reduceMod, m1, c1, hq,
      if_false, if_pos hidx, Proto.code_appendCode, Proto.code_withTop, Proto.code_withMax,
      Proto.code_withConstants, Proto.constants_appendCode, Proto.constants_withTop,
      Proto.constants_withMax, Proto.constants_withConstants, Proto.top_withConstants,
      hnum, hcode, Option.map_some]
    simp [hcode]
  · intro context proto code0 hcode htop hidx
    rcases hnum : ir_constant_number proto.constants ⟨32768, false⟩ with ⟨idx, pool1⟩
    rw [hnum] at hidx
    simp only at hidx
    have m1 : (proto.top_register + 1) % 256 = proto.top_register + 1 := by omega
    have c1 : ¬ (255 < proto.top_register + 1) := by omega
    have hno : ¬ (idx ≤ 65535) := by omega
    have hq : ((32768 : ℚ) ≤ (32767 : ℚ)) = False := by norm_num
    simp only [ir_build_proto, ir_allocate_register_eq, reduceIte, Nat.reduceMod, m1, c1, hq,
      if_false, if_neg hno, Proto.code_appendCode, Proto.code_withTop, Proto.code_withMax,
      Proto.code_withConstants, Proto.constants_appendCode, Proto.constants_withTop,
      Proto.constants_withMax, Proto.constants_withConstants, Proto.top_withConstants,
      hnum, hcode, Option.map_some]
    simp [hcode]

theorem ir_find_number_constant_replicate_str (n : Nat) (v : CDouble) (i : Nat) :
    ir_find_number_constant (List.replicate n (IRConstant.str 0)) v i = none := by
  induction n generalizing i with
  | zero => rfl
  | succ k ih => simp [List.replicate_succ, ir_find_number_constant, ih]

theorem claim3_witness :
    ((Proto.mk (some []) ⟨[], 0⟩ false 0 0 0 [] 1).code = some []
      ∧ (Proto.mk (some []) ⟨[], 0⟩ false 0 0 0 [] 1).top_register ≤ 254
      ∧ (ir_build_proto ⟨0⟩ (.mk (some []) ⟨[], 0⟩ false 0 0 0 [] 1) (.number ⟨32767, false⟩)).2.code
          = some [ir_instruction_AsBx .IR_LOADI 0 32767])
    ∧ ((ir_constant_number (ConstantList.mk [] 0) ⟨32768, false⟩).1 ≤ 65535
      ∧ (ir_build_proto ⟨0⟩ (.mk (some []) ⟨[], 0⟩ false 0 0 0 [] 1) (.number ⟨32768, false⟩)).2.code
          = some [ir_instruction_ABx .IR_LOADK 0 0])
    ∧ ((ir_constant_number (ConstantList.mk (List.replicate 65536 (.str 0)) 65536)
          ⟨32768, false⟩).1 = 65536
      ∧ (ir_build_proto ⟨0⟩
            (.mk (some []) (ConstantList.mk (List.replicate 65536 (.str 0)) 65536) false 0 0 0 [] 1)
            (.number ⟨32768, false⟩)).2.code
          = some ([] ++ [ir_instruction_ABx .IR_LOADKX 0 0,
              ir_instruction_sub (ir_constant_number
                (ConstantList.mk (List.replicate 65536 (.str 0)) 65536) ⟨32768, false⟩).1])) := by
  have hbig : ir_constant_number (ConstantList.mk (List.replicate 65536 (.str 0)) 65536)
      ⟨32768, false⟩ = (65536, ⟨List.replicate 65536 (.str 0) ++ [.num ⟨32768, false⟩], 65537⟩) := by
    have hf := ir_find_number_constant_replicate_str 65536 ⟨32768, false⟩ 0
    simp only [ir_constant_number]
    rw [hf]
  have hidx : 65535 < (ir_constant_number
      (ConstantList.mk (List.replicate 65536 (IRConstant.str 0)) 65536) ⟨32768, false⟩).1 := by
    rw [hbig]
    decide
  refine ⟨⟨rfl, by decide, ?_⟩, ⟨by decide, ?_⟩, ⟨by rw [hbig], ?_⟩⟩
  · exact (claim3_number_literal_three_tiers.1 ⟨0⟩ (.mk (some []) ⟨[], 0⟩ false 0 0 0 [] 1)
      [] rfl (by decide)).1
  · exact (claim3_number_literal_three_tiers.2.1 ⟨0⟩ (.mk (some []) ⟨[], 0⟩ false 0 0 0 [] 1)
      [] rfl (by decide) (by decide)).1
  · exact (claim3_number_literal_three_tiers.2.2 ⟨0⟩
      (.mk (some []) (ConstantList.mk (List.replicate 65536 (.str 0)) 65536) false 0 0 0 [] 1)
      [] rfl (by decide) hidx).1

/-! The failing input of claim C9: a parent whose FIRST child has a child of
its own and whose second child follows it. -/

def c9_g : Proto := .mk none ⟨[], 0⟩ false 0 0 3 [] 1

def c9_child1 : Proto := .mk none ⟨[], 0⟩ false 0 0 1 [c9_g] 1

def c9_child2 : Proto := .mk none ⟨[], 0⟩ false 0 0 2 [] 1

def c9_parent : Proto := .mk none ⟨[], 0⟩ false 0 0 0 [c9_child1, c9_child2] 1

/-- C9 requires the collector to return EVERY prototype of the tree in
post-order, and the source's own comment says it "will collect all protos";
the code, however, mutates the sibling links it is traversing.  Evaluated at
the failing input — parent P with children [c1, c2] where c1 has a child g —
the collection is [g, c1, P]: g and c1 do precede P, but c2 is dropped
entirely, because the `ir_proto_append(list, c1)` that closes c1's own
collection overwrote `c1->next` (the link to c2) with NULL before the
parent's loop increment read it.  (On the flat prototype trees the builder
actually produces — every child a leaf, itself a consequence of the C1
defect — no sibling link is severed and the collector does return the full
post-order sequence.) -/
theorem claim9_eval_collect_drops_sibling :
    ir_collect_protos c9_parent = [c9_g, c9_child1, c9_parent]
    ∧ c9_child2 ∉ ir_collect_protos c9_parent := by
  have heval : ir_collect_protos c9_parent = [c9_g, c9_child1, c9_parent] := by
    simp [ir_collect_protos, ir_collect_visit, c9_parent, c9_child1, c9_child2, c9_g,
      Proto.protos]
  refine ⟨heval, ?_⟩
  rw [heval]
  intro hmem
  simp only [List.mem_cons, List.not_mem_nil, or_false] at hmem
  rcases hmem with h | h | h <;> simp [c9_child2, c9_g, c9_child1, c9_parent] at h

/-! The matched allocate/free sequences of spec test property 3 (claim C6):
`allocate(n); free(n); allocate(n'); free(n'); ...` on one prototype. -/

/-- Run a list of matched `allocate(n); free(n)` pairs. -/
def runAllocFreePairs (context : IRContext) (proto : Proto) : List Nat → IRContext × Proto
  | [] => (context, proto)
  | n :: rest =>
    let (_, context, proto) := ir_allocate_register context proto n
    let (context, proto) := ir_free_register context proto n
    runAllocFreePairs context proto rest

/-- Every observable allocator state of such a run: the prototype after each
single operation (after each allocate and after each free), in order. -/
def allocFreePairStates (context : IRContext) (proto : Proto) : List Nat → List Proto
  | [] => []
  | n :: rest =>
    let (_, c1, p1) := ir_allocate_register context proto n
    let (c2, p2) := ir_free_register c1 p1 n
    p1 :: p2 :: allocFreePairStates c2 p2 rest

theorem runAllocFreePairs_ctx_indep (l : List Nat) (c c' : IRContext) (p : Proto) :
    (runAllocFreePairs c p l).2 = (runAllocFreePairs c' p l).2 := by
  induction l generalizing c c' p with
  | nil => rfl
  | cons n rest ih =>
    simp only [runAllocFreePairs, ir_allocate_register_eq, ir_free_register_eq]
    exact ih _ _ _

theorem allocFreePairStates_ctx_indep (l : List Nat) (c c' : IRContext) (p : Proto) :
    allocFreePairStates c p l = allocFreePairStates c' p l := by
  induction l generalizing c c' p with
  | nil => rfl
  | cons n rest ih =>
    simp only [allocFreePairStates, ir_allocate_register_eq, ir_free_register_eq,
      List.cons.injEq, true_and]
    exact ih _ _ _

theorem runAllocFreePairs_cons_proto (context : IRContext) (proto : Proto) (n : Nat)
    (rest : List Nat) (htop : proto.top_register ≤ 255) :
    (runAllocFreePairs context proto (n :: rest)).2
      = (runAllocFreePairs context
          (((proto.withTop ((proto.top_register + n % 256) % 256)).withMax
              (Nat.max proto.max_stack_size ((proto.top_register + n % 256) % 256))).withTop
            proto.top_register) rest).2 := by
  have mt : ((proto.top_register + n % 256) % 256 + 256 - n % 256) % 256
      = proto.top_register := by omega
  simp only [runAllocFreePairs, ir_allocate_register_eq, ir_free_register_eq,
    Proto.top_withTop, Proto.top_withMax, mt]
  exact runAllocFreePairs_ctx_indep _ _ _ _

theorem allocFreePairStates_cons (context : IRContext) (proto : Proto) (n : Nat)
    (rest : List Nat) (htop : proto.top_register ≤ 255) :
    allocFreePairStates context proto (n :: rest)
      = ((proto.withTop ((proto.top_register + n % 256) % 256)).withMax
            (Nat.max proto.max_stack_size ((proto.top_register + n % 256) % 256)))
        :: (((proto.withTop ((proto.top_register + n % 256) % 256)).withMax
            (Nat.max proto.max_stack_size ((proto.top_register + n % 256) % 256))).withTop
            proto.top_register)
        :: allocFreePairStates context
            (((proto.withTop ((proto.top_register + n % 256) % 256)).withMax
                (Nat.max proto.max_stack_size ((proto.top_register + n % 256) % 256))).withTop
              proto.top_register) rest := by
  have mt : ((proto.top_register + n % 256) % 256 + 256 - n % 256) % 256
      = proto.top_register := by omega
  simp only [allocFreePairStates, ir_allocate_register_eq, ir_free_register_eq,
    Proto.top_withTop, Proto.top_withMax, mt, List.cons.injEq, true_and]
  exact allocFreePairStates_ctx_indep _ _ _ _

theorem runAllocFreePairs_top (context : IRContext) (proto : Proto) (l : List Nat)
    (htop : proto.top_register ≤ 255) :
    (runAllocFreePairs context proto l).2.top_register = proto.top_register := by
  induction l generalizing context proto with
  | nil => rfl
  | cons n rest ih =>
    rw [runAllocFreePairs_cons_proto context proto n rest htop, ih]
    · simp
    · simp [htop]

theorem foldr_nat_max_swap (xs : List Nat) (a b : Nat) :
    xs.foldr Nat.max (Nat.max a b) = Nat.max b (xs.foldr Nat.max a) := by
  induction xs with
  | nil => exact Nat.max_comm a b
  | cons x rest ih =>
    show Nat.max x (List.foldr Nat.max (Nat.max a b) rest)
        = Nat.max b (Nat.max x (List.foldr Nat.max a rest))
    rw [ih]
    generalize List.foldr Nat.max a rest = y
    simp only [Nat.max_def]
    split_ifs <;> omega

theorem runAllocFreePairs_max (context : IRContext) (proto : Proto) (l : List Nat)
    (htop : proto.top_register ≤ 255) :
    (runAllocFreePairs context proto l).2.max_stack_size
      = (l.map fun n => (proto.top_register + n % 256) % 256).foldr Nat.max
          proto.max_stack_size := by
  induction l generalizing context proto with
  | nil => rfl
  | cons n rest ih =>
    rw [runAllocFreePairs_cons_proto context proto n rest htop,
      ih context _ (by simp [htop])]
    simp only [Proto.top_withTop, Proto.top_withMax, Proto.max_withTop, Proto.max_withMax,
      List.map_cons, List.foldr_cons]
    exact foldr_nat_max_swap _ _ _

theorem allocFreePairStates_chain_max (context : IRContext) (proto : Proto) (l : List Nat)
    (htop : proto.top_register ≤ 255) :
    List.Chain' (fun a b => a.max_stack_size ≤ b.max_stack_size)
      (proto :: allocFreePairStates context proto l) := by
  induction l generalizing context proto with
  | nil => simp [allocFreePairStates]
  | cons n rest ih =>
    rw [allocFreePairStates_cons context proto n rest htop]
    refine List.Chain'.cons (by simp [Nat.le_max_left]) ?_
    refine List.Chain'.cons (by simp) ?_
    exact ih context _ (by simp [htop])

theorem allocFreePairStates_max_ge_top (context : IRContext) (proto : Proto) (l : List Nat)
    (htop : proto.top_register ≤ 255)
    (hinv : proto.top_register ≤ proto.max_stack_size) :
    ∀ q ∈ allocFreePairStates context proto l, q.top_register ≤ q.max_stack_size := by
  induction l generalizing context proto with
  | nil => simp [allocFreePairStates]
  | cons n rest ih =>
    rw [allocFreePairStates_cons context proto n rest htop]
    intro q hq
    simp only [List.mem_cons] at hq
    rcases hq with hq | hq | hq
    · subst hq
      simp [Nat.le_max_right]
    · subst hq
      simp only [Proto.top_withTop, Proto.max_withTop, Proto.max_withMax]
      exact Nat.le_trans hinv (Nat.le_max_left _ _)
    · exact ih context _ (by simp [htop])
        (by simp only [Proto.top_withTop, Proto.max_withTop, Proto.max_withMax]
            exact Nat.le_trans hinv (Nat.le_max_left _ _)) q hq

def c6_start : Proto := .mk none ⟨[], 0⟩ false 0 0 5 [] 1

/-- C6 as stated is false on the code: starting from an allocator state with
`top_register = 0` and `max_stack_size = 5` (any state with a high-water mark
above the current top), running the matched pair `allocate(3); free(3)`
leaves `max_stack_size = 5`, while the maximum value `top_register` took at
any point of the sequence (start, after the allocate, after the free) is 3 —
so `max_stack_size` does not equal the maximum observed `top_register`. -/
theorem claim6_counterexample :
    ¬ ((runAllocFreePairs ⟨0⟩ c6_start [3]).2.max_stack_size
        = ((c6_start :: allocFreePairStates ⟨0⟩ c6_start [3]).map Proto.top_register).foldr
            Nat.max 0) := by
  decide

/-- C6 amended: for every sequence of matched `allocate(n); free(n)` pairs
run on a prototype whose `top_register` is a valid register count (≤ 255),
(1) `top_register` returns to its starting value after any such sequence —
in particular after each matched pair; (2) the final `max_stack_size` equals
the maximum of its INITIAL value and every post-allocation `top_register`
value of the run (the claim's "maximum observed top_register" is correct
only when the initial `max_stack_size` does not already exceed every
observed top, e.g. on a fresh prototype); (3) `max_stack_size` is
monotonically non-decreasing from each observable state to the next; and
(4) if `max_stack_size ≥ top_register` holds initially it holds at every
observable point. -/
theorem claim6_amended_allocator_roundtrip (context : IRContext) (proto : Proto) (l : List Nat)
    (htop : proto.top_register ≤ 255) :
    (∀ l2 : List Nat, (runAllocFreePairs context proto l2).2.top_register = proto.top_register)
    ∧ (runAllocFreePairs context proto l).2.max_stack_size
        = (l.map fun n => (proto.top_register + n % 256) % 256).foldr Nat.max
            proto.max_stack_size
    ∧ List.Chain' (fun a b => a.max_stack_size ≤ b.max_stack_size)
        (proto :: allocFreePairStates context proto l)
    ∧ (proto.top_register ≤ proto.max_stack_size →
        ∀ q ∈ allocFreePairStates context proto l, q.top_register ≤ q.max_stack_size) :=
  ⟨fun l2 => runAllocFreePairs_top context proto l2 htop,
   runAllocFreePairs_max context proto l htop,
   allocFreePairStates_chain_max context proto l htop,
   fun hinv => allocFreePairStates_max_ge_top context proto l htop hinv⟩

theorem claim6_witness :
    (Proto.mk none ⟨[], 0⟩ false 0 0 0 [] 1).top_register ≤ 255
    ∧ (runAllocFreePairs ⟨0⟩ (.mk none ⟨[], 0⟩ false 0 0 0 [] 1) [2, 3]).2.top_register = 0
    ∧ (runAllocFreePairs ⟨0⟩ (.mk none ⟨[], 0⟩ false 0 0 0 [] 1) [2, 3]).2.max_stack_size = 3
    ∧ List.Chain' (fun a b => a.max_stack_size ≤ b.max_stack_size)
        ((Proto.mk none ⟨[], 0⟩ false 0 0 0 [] 1)
          :: allocFreePairStates ⟨0⟩ (.mk none ⟨[], 0⟩ false 0 0 0 [] 1) [2, 3])
    ∧ ∀ q ∈ allocFreePairStates ⟨0⟩ (.mk none ⟨[], 0⟩ false 0 0 0 [] 1) [2, 3],
        q.top_register ≤ q.max_stack_size := by
  have h := claim6_amended_allocator_roundtrip ⟨0⟩ (.mk none ⟨[], 0⟩ false 0 0 0 [] 1) [2, 3]
    (by decide)
  refine ⟨by decide, h.1 [2, 3], ?_, h.2.2.1, h.2.2.2 (by decide)⟩
  rw [h.2.1]
  decide

end LuappIR
